import Mathlib

/-!
Verification of the `cfs` cash-flow simulation engine (`src/cfs/simulation.py`).

The Python engine is shallowly embedded: dates are `(year, month, day)`
records ordered lexicographically, monetary amounts are integers, generator
coroutines are lists of commands consumed one suspension point at a time,
and the scheduler (`Simulation.run` / `_period_cashflows` /
`_maybe_advance_period`) is an explicit fuel-driven state machine.  The
internal `StopSimulation` control exception (caught and logged by `run`) is
modelled as a `StopReason` recorded in the final state, while exceptions
that escape `run` to the caller are modelled as a `some` error in the
result pair.
-/

namespace Cfs

/-- Calendar date, ordered lexicographically by (year, month, day).
`year` is an `Int` so that negative `relativedelta` offsets stay faithful. -/
structure Date where
  year : Int
  month : Nat
  day : Nat
deriving DecidableEq, Repr

/-- Strict order on dates: lexicographic on (year, month, day). -/
def Date.blt (a b : Date) : Bool :=
  if a.year < b.year then true
  else if b.year < a.year then false
  else if a.month < b.month then true
  else if b.month < a.month then false
  else decide (a.day < b.day)

/-- Non-strict order on dates. -/
def Date.ble (a b : Date) : Bool :=
  a == b || Date.blt a b

/-- Gregorian leap-year test, as Python's `calendar` uses. -/
def isLeap (y : Int) : Bool :=
  y % 4 == 0 && (y % 100 != 0 || y % 400 == 0)

/-- Number of days in a month (month 1..12). -/
def daysInMonth (y : Int) (m : Nat) : Nat :=
  if m = 2 then (if isLeap y then 29 else 28)
  else if m = 4 ∨ m = 6 ∨ m = 9 ∨ m = 11 then 30
  else 31

/-- `date + relativedelta(months=k)`: month arithmetic with floor division
into years and the day clamped to the target month's length, exactly as
`dateutil.relativedelta` normalises. -/
def Date.addMonths (d : Date) (k : Int) : Date :=
  let M : Int := d.year * 12 + ((d.month : Int) - 1) + k
  let y := M.ediv 12
  let m := (M.emod 12).toNat + 1
  { year := y, month := m, day := min d.day (daysInMonth y m) }

/-- `date + relativedelta(years=a, months=b)`. -/
def Date.addRel (d : Date) (years months : Int) : Date :=
  d.addMonths (12 * years + months)

/-- `AcctType` enum from the source. -/
inductive AcctType where
  | asset | liability | income | expense | equity
deriving DecidableEq, Repr

/-- `Account` dataclass: name, initial balance, classification. Monetary
amounts are modelled as integers (`Int`), not floats. -/
structure Account where
  name : String
  initial : Int
  type : Option AcctType := none
  category : Option String := none
deriving DecidableEq, Repr

/-- The `CashFlow` namedtuple. -/
structure CashFlow where
  txn_id : Nat
  date : Date
  amount : Int
  from_acct : String
  to_acct : String
  description : String
  generator : String
deriving DecidableEq, Repr

def INITIAL : String := "initial"

def INITIAL_BALANCE_DESCRIPTION : String := "Initial balance"

/-- Exceptions that can escape `Simulation.run` to its caller.  `outOfFuel`
is a modelling artifact standing for non-termination of the Python loop. -/
inductive SimError where
  | invalidWaitTime
  | failedToAwaitClock
  | failedToYieldCashFlow
  | invalidCashFlowYielded
  | invalidAccount
  | outOfFuel
deriving DecidableEq, Repr

/-- The distinct `StopSimulation` messages raised inside the engine; `run`
catches all of them, so they are recorded in the final state rather than
surfaced to the caller. -/
inductive StopReason where
  | allExhausted
  | stalled
  | lastPeriodAdvance
  | pastEnd
deriving DecidableEq, Repr

/-- A generator body is a list of suspension-point commands.  `mint`
corresponds to calling `sim.cf(...)` (id allocated immediately, no yield);
`yieldMinted i` yields the i-th cashflow minted so far back to the
scheduler; `waitNotAwaited` corresponds to calling a clock wait primitive
without `await` (the `enforce_awaited` wrapper arms the pending-suspension
flag but the coroutine body never runs, so no threshold is set and no
suspension happens). -/
inductive GenCmd where
  | mint (amount : Int) (src dst desc : String)
  | yieldMinted (i : Nat)
  | awaitUntil (d : Date)
  | awaitTick (years months : Int)
  | awaitNextYearEnd
  | awaitUntilDay (day : Nat)
  | waitNotAwaited
deriving DecidableEq, Repr

/-- Per-generator state: remaining program, the clock cursor
(`Clock._waiting_for`), the `Clock._awaiting_clock_wait` flag, the
cashflows minted so far (Python local variables holding `sim.cf` results),
and the `SimContext._unyielded_cfs` counter. -/
structure GenState where
  name : String
  program : List GenCmd
  waiting_for : Date
  awaiting : Bool
  minted : List CashFlow
  unyielded : Int
deriving DecidableEq, Repr

/-- `Clock.ready`: a generator runs now iff its threshold equals the
current period. -/
def clockReady (current : Date) (g : GenState) : Bool :=
  g.waiting_for == current

/-- The `Clock.waiting_for` setter: rejects thresholds strictly before the
current period with `InvalidWaitTime`, otherwise stores the threshold. -/
def setWaiting (current : Date) (g : GenState) (d : Date) : Except SimError GenState :=
  if Date.blt d current then .error .invalidWaitTime
  else .ok { g with waiting_for := d }

/-- `Clock.next_calendar_year_end`: two setter assignments, exactly as in
the source (first Dec 31 of the current year, re-set to next year's Dec 31
when already at a year end). -/
def clockNextYearEnd (current : Date) (g : GenState) : Except SimError GenState := do
  let g1 ← setWaiting current g ⟨current.year, 12, 31⟩
  if g1.waiting_for == current then
    setWaiting current g1 ⟨current.year + 1, 12, 31⟩
  else
    pure g1

/-- The date `Clock.until_day` computes before assigning the setter: the
given day in the current month, pushed to the next month (wrapping into
January) when that is not strictly after the current period. -/
def untilDayTarget (current : Date) (day : Nat) : Date :=
  let w : Date := ⟨current.year, current.month, day⟩
  if Date.ble w current then
    let m := current.month + 1
    if m > 12 then ⟨current.year + 1, 1, day⟩ else ⟨current.year, m, day⟩
  else w

/-- Outcome of resuming a generator once (`_next` in the source): it hands
back a cashflow, the `WAITING` marker, or `StopAsyncIteration`
(exhaustion). -/
inductive ResumeOut where
  | yieldedCf (cf : CashFlow)
  | waiting
  | exhausted
deriving DecidableEq, Repr

/-- Resume a generator: run its commands until it yields a cashflow, truly
suspends on an awaited clock wait, or its body ends.  `sim.cf` mints with
the next global id and stamps the scheduler's current period; every await
primitive first arms the pending-suspension flag (`enforce_awaited`) and
then assigns the threshold through the `waiting_for` setter. -/
def resumeFrom (current : Date) :
    List GenCmd → GenState → Nat → Except SimError (ResumeOut × GenState × Nat)
  | [], g, nid => .ok (.exhausted, g, nid)
  | .mint amount src dst desc :: rest, g, nid =>
      resumeFrom current rest
        { g with program := rest,
                 minted := g.minted ++
                   [{ txn_id := nid, date := current, amount := amount,
                      from_acct := src, to_acct := dst, description := desc,
                      generator := g.name }],
                 unyielded := g.unyielded + 1 } (nid + 1)
  | .yieldMinted i :: rest, g, nid =>
      match g.minted[i]? with
      | some cf => .ok (.yieldedCf cf, { g with program := rest }, nid)
      | none => .error .invalidCashFlowYielded
  | .awaitUntil d :: rest, g, nid =>
      (setWaiting current { g with program := rest, awaiting := true } d).map
        (fun g2 => (.waiting, g2, nid))
  | .awaitTick years months :: rest, g, nid =>
      (setWaiting current { g with program := rest, awaiting := true }
          (current.addRel years months)).map
        (fun g2 => (.waiting, g2, nid))
  | .awaitNextYearEnd :: rest, g, nid =>
      (clockNextYearEnd current { g with program := rest, awaiting := true }).map
        (fun g2 => (.waiting, g2, nid))
  | .awaitUntilDay day :: rest, g, nid =>
      (setWaiting current { g with program := rest, awaiting := true }
          (untilDayTarget current day)).map
        (fun g2 => (.waiting, g2, nid))
  | .waitNotAwaited :: rest, g, nid =>
      resumeFrom current rest { g with program := rest, awaiting := true } nid

/-- Resuming a generator starts from its stored remaining program. -/
def resumeGen (current : Date) (g : GenState) (nid : Nat) :
    Except SimError (ResumeOut × GenState × Nat) :=
  resumeFrom current g.program g nid

/-- `Accounts._assert_accounts_are_valid`: both endpoints of a cashflow
must be registered accounts. -/
def validAccounts (reg : List Account) (cf : CashFlow) : Bool :=
  reg.any (fun a => a.name == cf.from_acct) && reg.any (fun a => a.name == cf.to_acct)

/-- One pass of `Simulation._period_cashflows`: every generator whose clock
is ready is resumed exactly once; an exhausted generator is closed
(faulting when it still holds unyielded mints) and removed; a cashflow
yielded while the pending-suspension flag is armed faults with
`FailedToAwaitClock`; an observed suspension disarms the flag.  Returns
the surviving generators in order, the cashflows collected this sweep in
production order, and the advanced id fountain. -/
def sweepAux (reg : List Account) (current : Date) :
    List GenState → Nat → Except SimError (List GenState × List CashFlow × Nat)
  | [], nid => .ok ([], [], nid)
  | g :: gs, nid =>
    if clockReady current g then
      match resumeGen current g nid with
      | .error e => .error e
      | .ok (.exhausted, g2, nid2) =>
          if g2.unyielded > 0 then .error .failedToYieldCashFlow
          else sweepAux reg current gs nid2
      | .ok (.waiting, g2, nid2) =>
          match sweepAux reg current gs nid2 with
          | .error e => .error e
          | .ok (gs2, cfs, nid3) => .ok ({ g2 with awaiting := false } :: gs2, cfs, nid3)
      | .ok (.yieldedCf cf, g2, nid2) =>
          if g2.awaiting then .error .failedToAwaitClock
          else if validAccounts reg cf then
            match sweepAux reg current gs nid2 with
            | .error e => .error e
            | .ok (gs2, cfs, nid3) =>
                .ok ({ g2 with unyielded := g2.unyielded - 1 } :: gs2, cf :: cfs, nid3)
          else .error .invalidAccount
    else
      match sweepAux reg current gs nid with
      | .error e => .error e
      | .ok (gs2, cfs, nid2) => .ok (g :: gs2, cfs, nid2)

/-- Scheduler state for one run. -/
structure SimState where
  start_date : Date
  end_date : Date
  current : Date
  lastPeriod : Bool
  gens : List GenState
  nextId : Nat
  registry : List Account
  ledger : List CashFlow
  stopReason : Option StopReason := none
deriving DecidableEq, Repr

/-- `min(g.clock.waiting_for for g in self.generators)`, `none` on an empty
generator set (Python's guard raises before taking the min there). -/
def minWaiting : List GenState → Option Date
  | [] => none
  | g :: gs =>
      some (gs.foldl
        (fun acc x => if Date.blt x.waiting_for acc then x.waiting_for else acc)
        g.waiting_for)

/-- `Simulation._maybe_advance_period`: stop when no generators remain;
stop as stalled when the instant produced nothing and nobody waits for a
later date; stay when somebody is still ready; stop when an advance is
requested on the final period; otherwise advance, marking the final period
on reaching `end_date` exactly and stopping on overshooting it.  The
source assigns `current_period` before the past-end raise and `run` sets
it to `None` after any stop; no verified property reads the current
period of a stopped state, so those mutations are not tracked. -/
def maybeAdvance (st : SimState) (mustAdvance : Bool) : Sum StopReason (SimState × Bool) :=
  match minWaiting st.gens with
  | none => .inl .allExhausted
  | some np =>
    if mustAdvance && np == st.current then .inl .stalled
    else if st.current == np then .inr (st, false)
    else if st.lastPeriod then .inl .lastPeriodAdvance
    else if np == st.end_date then
      .inr ({ st with current := np, lastPeriod := true }, true)
    else if Date.blt st.end_date np then .inl .pastEnd
    else .inr ({ st with current := np }, true)

/-- Closing the remaining generators at stop (`simctx.close()` loop in
`run`): the first one still holding unyielded mints raises
`FailedToYieldCashFlow` past `run` to the caller. -/
def closeAll (gens : List GenState) : Option SimError :=
  if gens.any (fun g => g.unyielded > 0) then some .failedToYieldCashFlow else none

/-- The `while True` loop of `Simulation.run`.  A `StopSimulation` is
caught: the pending instant's cashflows are flushed to the ledger, the
stop reason is recorded (it is only logged in the source), generators are
closed, and the run returns normally unless a close faults.  Any other
error escapes to the caller with the pending cashflows discarded.  `fuel`
bounds the number of sweeps; running out of fuel models the Python loop
never terminating. -/
def runLoop : Nat → SimState → List CashFlow → SimState × Option SimError
  | 0, st, _ => (st, some .outOfFuel)
  | fuel + 1, st, pending =>
    match sweepAux st.registry st.current st.gens st.nextId with
    | .error e => (st, some e)
    | .ok (gens2, newCfs, nid2) =>
      let st2 := { st with gens := gens2, nextId := nid2 }
      let pending2 := pending ++ newCfs
      match maybeAdvance st2 pending2.isEmpty with
      | .inl reason =>
          ({ st2 with ledger := st2.ledger ++ pending2, stopReason := some reason },
           closeAll st2.gens)
      | .inr (st3, advanced) =>
          if advanced then runLoop fuel { st3 with ledger := st3.ledger ++ pending2 } []
          else runLoop fuel st3 pending2

/-- `Accounts.add`: appends a fresh account record.  Mirrors the source,
which discards the `category` argument (`Account(..., category=None)`). -/
def addAccount (reg : List Account) (name : String) (initial : Int)
    (type : Option AcctType) (category : Option String) : List Account :=
  reg ++ [{ name := name, initial := initial, type := type, category := none }]

/-- The initial-balance cashflow `_prepare` builds for one account:
txn id 0, dated at the start date, moving the account's initial balance
from the synthetic `initial` account. -/
def initialCfFor (start_date : Date) (a : Account) : CashFlow :=
  { txn_id := 0, date := start_date, amount := a.initial, from_acct := INITIAL,
    to_acct := a.name, description := INITIAL_BALANCE_DESCRIPTION,
    generator := INITIAL }

/-- `Accounts._prepare`: one initial-balance cashflow with txn id 0 per
registered account, dated at the start date, from the synthetic `initial`
account, which is then auto-registered as an equity account when absent. -/
def prepareAccounts (accts : List Account) (start_date : Date) :
    List Account × List CashFlow :=
  let initial_cfs := accts.map (initialCfFor start_date)
  let reg := if accts.any (fun a => a.name == INITIAL) then accts
             else addAccount accts INITIAL 0 (some .equity) (some "External")
  (reg, initial_cfs)

/-- A cashflow generator as supplied to the engine: a name and a body. -/
structure GenSpec where
  name : String
  program : List GenCmd
deriving DecidableEq, Repr

/-- `_setup_generators`: each generator gets a fresh clock whose cursor
starts at the simulation start date, a disarmed suspension flag and a zero
unyielded counter. -/
def initGen (start_date : Date) (gs : GenSpec) : GenState :=
  { name := gs.name, program := gs.program, waiting_for := start_date,
    awaiting := false, minted := [], unyielded := 0 }

/-- `_prepare_run`: id fountain starting at 1, prepared accounts with the
initial-balance rows in the ledger, `last_period = False`, current period
at the start date. -/
def initSim (accts : List Account) (gens : List GenSpec)
    (start_date end_date : Date) : SimState :=
  let p := prepareAccounts accts start_date
  { start_date := start_date, end_date := end_date, current := start_date,
    lastPeriod := false, gens := gens.map (initGen start_date),
    nextId := 1, registry := p.1, ledger := p.2, stopReason := none }

/-- `Simulation.run` on a fresh simulation: prepare, then loop. -/
def runSim (fuel : Nat) (accts : List Account) (gens : List GenSpec)
    (start_date end_date : Date) : SimState × Option SimError :=
  runLoop fuel (initSim accts gens start_date end_date) []

/-- The `Simulation` object as constructed, before `run`:
`idFountainSpent` models the `id_fountain is not None` guard with which
`_prepare_run` rejects a second `run` of the same object. -/
structure Simulation where
  accts : List Account
  generators : List GenSpec
  start_date : Date
  end_date : Date
  idFountainSpent : Bool := false
deriving DecidableEq, Repr

/-- `Simulation.run` as a method on the object: a spent simulation raises
`GeneratorExhausted` (modelled as `none`); a fresh one runs and marks the
fountain spent. -/
def Simulation.runObj (fuel : Nat) (s : Simulation) :
    Option (SimState × Option SimError) × Simulation :=
  if s.idFountainSpent then (none, s)
  else (some (runSim fuel s.accts s.generators s.start_date s.end_date),
        { s with idFountainSpent := true })

/-- One row of the double-entry explosion. -/
structure Posting where
  txn_id : Nat
  date : Date
  acct : String
  amount : Int
  description : String
  generator : String
deriving DecidableEq, Repr

/-- The debit side: the source account is charged the negated amount. -/
def debitOf (cf : CashFlow) : Posting :=
  { txn_id := cf.txn_id, date := cf.date, acct := cf.from_acct,
    amount := -cf.amount, description := cf.description, generator := cf.generator }

/-- The credit side: the destination account receives the amount. -/
def creditOf (cf : CashFlow) : Posting :=
  { txn_id := cf.txn_id, date := cf.date, acct := cf.to_acct,
    amount := cf.amount, description := cf.description, generator := cf.generator }

/-- Code-point comparison of strings, as Python compares account names. -/
def charListLe : List Char → List Char → Bool
  | [], _ => true
  | _ :: _, [] => false
  | a :: as, b :: bs =>
      if a.toNat < b.toNat then true
      else if b.toNat < a.toNat then false
      else charListLe as bs

def strLe (a b : String) : Bool :=
  charListLe a.data b.data

/-- Ordering used by the pandas `sort_values` on `txn_id` and `acct` in
`JournalEntries.postings`.  pandas' default sort kind leaves the order of
full ties unspecified; a stable insertion sort is one valid refinement,
and every property verified below is invariant under permutation of
ties. -/
def postingLe (p q : Posting) : Bool :=
  p.txn_id < q.txn_id || (p.txn_id == q.txn_id && strLe p.acct q.acct)

/-- `JournalEntries.postings`: negated debit rows concatenated with credit
rows, sorted by transaction id and account. -/
def postings (journals : List CashFlow) : List Posting :=
  List.insertionSort (fun p q => postingLe p q = true)
    ((journals.map debitOf) ++ (journals.map creditOf))

/-- Total of a posting list's amounts. -/
def postingsTotal (ps : List Posting) : Int :=
  (ps.map Posting.amount).sum

/-- Whether an account identifier occurs in any posting row: exactly the
accounts that the pandas `groupby('acct')` balance Series is indexed by. -/
def acctAppears (ps : List Posting) (a : String) : Bool :=
  ps.any (fun p => p.acct == a)

/-- The grouped balance of one account: sum of its posting amounts. -/
def balanceFor (ps : List Posting) (a : String) : Int :=
  ((ps.filter (fun p => p.acct == a)).map Posting.amount).sum

/-- `Accounts.current_balances[a]`: indexing the grouped Series raises
`KeyError` for an account with no postings; modelled as `none`. -/
def currentBalancesLookup (journals : List CashFlow) (a : String) : Option Int :=
  if acctAppears (postings journals) a then some (balanceFor (postings journals) a)
  else none

/-- `Accounts.sum`: `current_balances.loc[names].sum()`; `.loc` with a
label list raises `KeyError` when any label is missing from the Series
(pandas 1.0 semantics), modelled as `none`. -/
def sumAccounts (journals : List CashFlow) (names : List String) : Option Int :=
  if names.all (fun a => acctAppears (postings journals) a) then
    some ((names.map (fun a => balanceFor (postings journals) a)).sum)
  else none

/-- `Accounts.journals`: the journal rows re-indexed and sorted by
transaction id (stable refinement of the pandas sort). -/
def journalsView (journals : List CashFlow) : List CashFlow :=
  List.insertionSort (fun a b => a.txn_id ≤ b.txn_id) journals

/-- Strict monotonicity of a list of ids. -/
def strictlyIncreasing : List Nat → Bool
  | [] => true
  | [_] => true
  | a :: b :: t => decide (a < b) && strictlyIncreasing (b :: t)

/-- Every element's occurrences form one contiguous block: once a
different element has intervened, an element never occurs again. -/
def blockOk : List String → Option String → List String → Bool
  | [], _, _ => true
  | a :: t, prev, seen =>
      if some a == prev then blockOk t prev seen
      else if seen.contains a then false
      else blockOk t (some a) (a :: seen)

def blockConsecutive (l : List String) : Bool :=
  blockOk l none []

theorem resumeGen_nil (current : Date) (g : GenState) (nid : Nat)
    (h : g.program = []) :
    resumeGen current g nid = .ok (.exhausted, g, nid) := by
  obtain ⟨name, program, wf, aw, minted, uny⟩ := g
  simp only at h
  subst h
  rfl

theorem resumeGen_mint (current : Date) (g : GenState) (nid : Nat)
    (amount : Int) (src dst desc : String) (rest : List GenCmd)
    (h : g.program = .mint amount src dst desc :: rest) :
    resumeGen current g nid =
      resumeGen current
        { g with program := rest,
                 minted := g.minted ++
                   [{ txn_id := nid, date := current, amount := amount,
                      from_acct := src, to_acct := dst, description := desc,
                      generator := g.name }],
                 unyielded := g.unyielded + 1 } (nid + 1) := by
  obtain ⟨name, program, wf, aw, minted, uny⟩ := g
  simp only at h
  subst h
  rfl

theorem resumeGen_yieldMinted (current : Date) (g : GenState) (nid : Nat)
    (i : Nat) (rest : List GenCmd)
    (h : g.program = .yieldMinted i :: rest) :
    resumeGen current g nid =
      match g.minted[i]? with
      | some cf => .ok (.yieldedCf cf, { g with program := rest }, nid)
      | none => .error .invalidCashFlowYielded := by
  obtain ⟨name, program, wf, aw, minted, uny⟩ := g
  simp only at h
  subst h
  rfl

theorem resumeGen_awaitUntil (current : Date) (g : GenState) (nid : Nat)
    (d : Date) (rest : List GenCmd)
    (h : g.program = .awaitUntil d :: rest) :
    resumeGen current g nid =
      (setWaiting current { g with program := rest, awaiting := true } d).map
        (fun g2 => (.waiting, g2, nid)) := by
  obtain ⟨name, program, wf, aw, minted, uny⟩ := g
  simp only at h
  subst h
  rfl

theorem resumeGen_awaitTick (current : Date) (g : GenState) (nid : Nat)
    (years months : Int) (rest : List GenCmd)
    (h : g.program = .awaitTick years months :: rest) :
    resumeGen current g nid =
      (setWaiting current { g with program := rest, awaiting := true }
          (current.addRel years months)).map
        (fun g2 => (.waiting, g2, nid)) := by
  obtain ⟨name, program, wf, aw, minted, uny⟩ := g
  simp only at h
  subst h
  rfl

theorem resumeGen_awaitNextYearEnd (current : Date) (g : GenState) (nid : Nat)
    (rest : List GenCmd)
    (h : g.program = .awaitNextYearEnd :: rest) :
    resumeGen current g nid =
      (clockNextYearEnd current { g with program := rest, awaiting := true }).map
        (fun g2 => (.waiting, g2, nid)) := by
  obtain ⟨name, program, wf, aw, minted, uny⟩ := g
  simp only at h
  subst h
  rfl

theorem resumeGen_awaitUntilDay (current : Date) (g : GenState) (nid : Nat)
    (day : Nat) (rest : List GenCmd)
    (h : g.program = .awaitUntilDay day :: rest) :
    resumeGen current g nid =
      (setWaiting current { g with program := rest, awaiting := true }
          (untilDayTarget current day)).map
        (fun g2 => (.waiting, g2, nid)) := by
  obtain ⟨name, program, wf, aw, minted, uny⟩ := g
  simp only at h
  subst h
  rfl

theorem resumeGen_waitNotAwaited (current : Date) (g : GenState) (nid : Nat)
    (rest : List GenCmd)
    (h : g.program = .waitNotAwaited :: rest) :
    resumeGen current g nid =
      resumeGen current { g with program := rest, awaiting := true } nid := by
  obtain ⟨name, program, wf, aw, minted, uny⟩ := g
  simp only at h
  subst h
  rfl

theorem Date.blt_irrefl (a : Date) : Date.blt a a = false := by
  simp [Date.blt]

theorem Date.blt_asymm (a b : Date) (h : Date.blt a b = true) : Date.blt b a = false := by
  unfold Date.blt at h ⊢
  split_ifs at h ⊢ <;> simp_all <;> omega

theorem Date.ne_of_blt (a b : Date) (h : Date.blt a b = true) : b ≠ a := by
  intro he
  subst he
  rw [Date.blt_irrefl] at h
  exact Bool.false_ne_true h

theorem Date.blt_yearEnd_same (c : Date) (hm : c.month ≤ 12) (hd : c.day ≤ 31) :
    Date.blt ⟨c.year, 12, 31⟩ c = false := by
  unfold Date.blt
  split_ifs <;> simp_all <;> omega

theorem Date.blt_yearEnd_next (c : Date) :
    Date.blt ⟨c.year + 1, 12, 31⟩ c = false := by
  unfold Date.blt
  split_ifs <;> simp_all

theorem Date.blt_untilDayTarget (c : Date) (day : Nat) :
    Date.blt (untilDayTarget c day) c = false := by
  unfold untilDayTarget
  dsimp only
  split_ifs with h1 h2
  · unfold Date.blt
    split_ifs <;> simp_all
  · unfold Date.blt
    split_ifs <;> simp_all <;> omega
  · unfold Date.ble at h1
    simp only [Bool.or_eq_true, not_or] at h1
    exact Bool.eq_false_iff.mpr h1.2

theorem runLoop_sweep_error (fuel : Nat) (st : SimState) (pending : List CashFlow) (e : SimError)
    (h : sweepAux st.registry st.current st.gens st.nextId = .error e) :
    runLoop (fuel + 1) st pending = (st, some e) := by
  simp [runLoop, h]

theorem maybeAdvance_inr_fields (st : SimState) (m : Bool) (st3 : SimState) (adv : Bool)
    (h : maybeAdvance st m = .inr (st3, adv)) :
    st3.ledger = st.ledger ∧ st3.registry = st.registry ∧
    st3.nextId = st.nextId ∧ st3.start_date = st.start_date ∧ st3.end_date = st.end_date ∧
    st3.stopReason = st.stopReason ∧ st3.gens = st.gens := by
  unfold maybeAdvance at h
  cases hmw : minWaiting st.gens <;> rw [hmw] at h
  · cases h
  · repeat' split at h
    all_goals cases h
    all_goals simp

theorem runLoop_stop (fuel : Nat) (st : SimState) (pending : List CashFlow)
    (gens2 : List GenState) (cfs : List CashFlow) (nid2 : Nat) (reason : StopReason)
    (hsw : sweepAux st.registry st.current st.gens st.nextId = .ok (gens2, cfs, nid2))
    (hma : maybeAdvance { st with gens := gens2, nextId := nid2 }
             (pending ++ cfs).isEmpty = .inl reason) :
    runLoop (fuel + 1) st pending =
      ({ st with gens := gens2, nextId := nid2, ledger := st.ledger ++ (pending ++ cfs),
                 stopReason := some reason }, closeAll gens2) := by
  simp [runLoop, hsw, hma]

theorem runLoop_step_inr (fuel : Nat) (st : SimState) (pending : List CashFlow)
    (gens2 : List GenState) (cfs : List CashFlow) (nid2 : Nat) (st3 : SimState) (adv : Bool)
    (hsw : sweepAux st.registry st.current st.gens st.nextId = .ok (gens2, cfs, nid2))
    (hma : maybeAdvance { st with gens := gens2, nextId := nid2 }
             (pending ++ cfs).isEmpty = .inr (st3, adv)) :
    runLoop (fuel + 1) st pending =
      if adv then runLoop fuel { st3 with ledger := st3.ledger ++ (pending ++ cfs) } []
      else runLoop fuel st3 (pending ++ cfs) := by
  simp [runLoop, hsw, hma]

theorem runLoop_fields (fuel : Nat) (st : SimState) (pending : List CashFlow) :
    (∃ t, (runLoop fuel st pending).1.ledger = st.ledger ++ t) ∧
    (runLoop fuel st pending).1.registry = st.registry ∧
    (runLoop fuel st pending).1.start_date = st.start_date ∧
    (runLoop fuel st pending).1.end_date = st.end_date := by
  induction fuel generalizing st pending with
  | zero =>
      refine ⟨⟨[], ?_⟩, ?_, ?_, ?_⟩ <;> simp [runLoop]
  | succ n ih =>
    cases hsw : sweepAux st.registry st.current st.gens st.nextId with
    | error e =>
        rw [runLoop_sweep_error n st pending e hsw]
        exact ⟨⟨[], by simp⟩, rfl, rfl, rfl⟩
    | ok r =>
      obtain ⟨gens2, cfs, nid2⟩ := r
      cases hma : maybeAdvance { st with gens := gens2, nextId := nid2 } (pending ++ cfs).isEmpty with
      | inl reason =>
          rw [runLoop_stop n st pending gens2 cfs nid2 reason hsw hma]
          exact ⟨⟨pending ++ cfs, rfl⟩, rfl, rfl, rfl⟩
      | inr p =>
        obtain ⟨st3, adv⟩ := p
        obtain ⟨hl3, hr3, _, hs3, he3, _, _⟩ := maybeAdvance_inr_fields _ _ _ _ hma
        simp only at hl3 hr3 hs3 he3
        rw [runLoop_step_inr n st pending gens2 cfs nid2 st3 adv hsw hma]
        cases adv with
        | false =>
            simp only [Bool.false_eq_true, if_false]
            obtain ⟨⟨t, hl⟩, hr, hs, he⟩ := ih st3 (pending ++ cfs)
            exact ⟨⟨t, by rw [hl, hl3]⟩, by rw [hr, hr3], by rw [hs, hs3], by rw [he, he3]⟩
        | true =>
            simp only [if_true]
            obtain ⟨⟨t, hl⟩, hr, hs, he⟩ := ih { st3 with ledger := st3.ledger ++ (pending ++ cfs) } []
            refine ⟨⟨(pending ++ cfs) ++ t, ?_⟩, by simpa using hr.trans hr3,
              by simpa using hs.trans hs3, by simpa using he.trans he3⟩
            simp only at hl
            rw [hl, hl3]
            simp [List.append_assoc]

theorem postingsTotal_eq_zero (l : List CashFlow) : postingsTotal (postings l) = 0 := by
  unfold postingsTotal postings
  rw [List.Perm.sum_eq (List.Perm.map Posting.amount (List.perm_insertionSort _ _))]
  induction l with
  | nil => simp
  | cons c t ih =>
    simp only [List.map_cons, List.map_append, List.sum_append, List.sum_cons] at ih ⊢
    simp only [debitOf, creditOf] at ih ⊢
    omega

/-- C2: after every ledger flush during a run (including the final flush at
stop), every transfer explodes into a debit posting on the source account
and a credit posting on the destination account of equal and opposite
magnitude, and the sum of all postings across all accounts (including the
synthetic initial-balance transfers) is exactly 0. -/
theorem zero_sum_ledger (l : List CashFlow) (fuel : Nat) (accts : List Account)
    (gens : List GenSpec) (sd ed : Date) :
    postingsTotal (postings l) = 0 ∧
    (postings l).Perm (l.map debitOf ++ l.map creditOf) ∧
    (∀ cf : CashFlow, (debitOf cf).acct = cf.from_acct ∧ (creditOf cf).acct = cf.to_acct ∧
        (debitOf cf).amount = -cf.amount ∧ (creditOf cf).amount = cf.amount ∧
        (debitOf cf).amount + (creditOf cf).amount = 0) ∧
    postingsTotal (postings (runSim fuel accts gens sd ed).1.ledger) = 0 := by
  refine ⟨postingsTotal_eq_zero l, List.perm_insertionSort _ _, ?_, postingsTotal_eq_zero _⟩
  intro cf
  simp [debitOf, creditOf]

/-- C10: at the start of every run, each registered account's initial
balance is materialized in the ledger as a transfer with txn id 0, dated at
the start date, from the synthetic `initial` account (auto-registered as an
equity account when absent) to that account; these rows appear in the
journals and postings outputs alongside generator-produced transfers. -/
theorem initial_balance_rows (fuel : Nat) (accts : List Account) (gens : List GenSpec)
    (sd ed : Date) (a : Account) (ha : a ∈ accts) :
    initialCfFor sd a ∈ (runSim fuel accts gens sd ed).1.ledger ∧
    initialCfFor sd a ∈ journalsView (runSim fuel accts gens sd ed).1.ledger ∧
    creditOf (initialCfFor sd a) ∈ postings (runSim fuel accts gens sd ed).1.ledger ∧
    (initialCfFor sd a).txn_id = 0 ∧ (initialCfFor sd a).date = sd ∧
    (initialCfFor sd a).amount = a.initial ∧ (initialCfFor sd a).from_acct = INITIAL ∧
    (initialCfFor sd a).to_acct = a.name ∧
    (accts.any (fun x => x.name == INITIAL) = false →
      ({ name := INITIAL, initial := 0, type := some .equity, category := none } : Account)
        ∈ (runSim fuel accts gens sd ed).1.registry) := by
  have hinit : initialCfFor sd a ∈ (initSim accts gens sd ed).ledger := by
    simp only [initSim, prepareAccounts]
    exact List.mem_map_of_mem _ ha
  obtain ⟨⟨t, hl⟩, hr, _, _⟩ := runLoop_fields fuel (initSim accts gens sd ed) []
  have hmem : initialCfFor sd a ∈ (runSim fuel accts gens sd ed).1.ledger := by
    unfold runSim
    rw [hl]
    exact List.mem_append_left _ hinit
  refine ⟨hmem, ?_, ?_, rfl, rfl, rfl, rfl, rfl, ?_⟩
  · unfold journalsView
    exact (List.perm_insertionSort _ _).mem_iff.mpr hmem
  · unfold postings
    refine (List.perm_insertionSort _ _).mem_iff.mpr ?_
    exact List.mem_append_right _ (List.mem_map_of_mem creditOf hmem)
  · intro hno
    unfold runSim
    rw [hr]
    simp only [initSim, prepareAccounts, hno]
    simp [addAccount]

/-- C9: executing the same set of generators against the same initial
accounts and the same start and end dates on two fresh Simulation objects
produces identical results, in particular identical ledgers; the second
conjunct records that a fresh run actually executes (a spent object
raises instead of re-running, returning no result). -/
theorem run_deterministic (fuel : Nat) (s1 s2 : Simulation)
    (hacc : s1.accts = s2.accts) (hg : s1.generators = s2.generators)
    (hsd : s1.start_date = s2.start_date) (hed : s1.end_date = s2.end_date)
    (h1 : s1.idFountainSpent = false) (h2 : s2.idFountainSpent = false) :
    (Simulation.runObj fuel s1).1 = (Simulation.runObj fuel s2).1 ∧
    (∃ r, (Simulation.runObj fuel s1).1 = some r) := by
  obtain ⟨a1, g1, sd1, ed1, f1⟩ := s1
  obtain ⟨a2, g2, sd2, ed2, f2⟩ := s2
  simp only at hacc hg hsd hed h1 h2
  subst hacc hg hsd hed h1 h2
  simp [Simulation.runObj]

theorem initial_balance_rows_witness :
    initialCfFor ⟨2019, 1, 1⟩ ⟨"A", 5, none, none⟩ ∈
      (runSim 3 [⟨"A", 5, none, none⟩] [] ⟨2019, 1, 1⟩ ⟨2020, 1, 1⟩).1.ledger ∧
    ({ name := INITIAL, initial := 0, type := some .equity, category := none } : Account)
        ∈ (runSim 3 [⟨"A", 5, none, none⟩] [] ⟨2019, 1, 1⟩ ⟨2020, 1, 1⟩).1.registry := by
  have h := initial_balance_rows 3 [⟨"A", 5, none, none⟩] [] ⟨2019, 1, 1⟩ ⟨2020, 1, 1⟩
    ⟨"A", 5, none, none⟩ (by simp)
  exact ⟨h.1, h.2.2.2.2.2.2.2.2 (by decide)⟩

theorem run_deterministic_witness :
    (Simulation.runObj 3 ⟨[⟨"A", 1, none, none⟩], [], ⟨2019, 1, 1⟩, ⟨2020, 1, 1⟩, false⟩).1 =
      (Simulation.runObj 3 ⟨[⟨"A", 1, none, none⟩], [], ⟨2019, 1, 1⟩, ⟨2020, 1, 1⟩, false⟩).1 ∧
    (∃ r, (Simulation.runObj 3
      ⟨[⟨"A", 1, none, none⟩], [], ⟨2019, 1, 1⟩, ⟨2020, 1, 1⟩, false⟩).1 = some r) :=
  run_deterministic 3
    ⟨[⟨"A", 1, none, none⟩], [], ⟨2019, 1, 1⟩, ⟨2020, 1, 1⟩, false⟩
    ⟨[⟨"A", 1, none, none⟩], [], ⟨2019, 1, 1⟩, ⟨2020, 1, 1⟩, false⟩
    rfl rfl rfl rfl rfl rfl

theorem initialCf_mem_run_ledger (fuel : Nat) (accts : List Account) (gens : List GenSpec)
    (sd ed : Date) (a : Account) (ha : a ∈ accts) :
    initialCfFor sd a ∈ (runSim fuel accts gens sd ed).1.ledger := by
  have hinit : initialCfFor sd a ∈ (initSim accts gens sd ed).ledger := by
    simp only [initSim, prepareAccounts]
    exact List.mem_map_of_mem _ ha
  obtain ⟨⟨t, hl⟩, _, _, _⟩ := runLoop_fields fuel (initSim accts gens sd ed) []
  unfold runSim
  rw [hl]
  exact List.mem_append_left _ hinit

theorem acctAppears_of_registered (fuel : Nat) (accts : List Account) (gens : List GenSpec)
    (sd ed : Date) (a : Account) (ha : a ∈ accts) :
    acctAppears (postings (runSim fuel accts gens sd ed).1.ledger) a.name = true := by
  unfold acctAppears
  apply List.any_eq_true.mpr
  refine ⟨creditOf (initialCfFor sd a), ?_, ?_⟩
  · unfold postings
    exact (List.perm_insertionSort _ _).mem_iff.mpr
      (List.mem_append_right _
        (List.mem_map_of_mem creditOf (initialCf_mem_run_ledger fuel accts gens sd ed a ha)))
  · simp [creditOf, initialCfFor]

/-- C7 counterexample: after a run with one registered account, the
current-balances lookup of an account that is unknown and never posted to
raises a KeyError (modelled as `none`); it does not return 0.  The summing
query over a list containing such an account fails the same way.  This
matches the repository's own test, which expects a KeyError here. -/
theorem unknown_account_lookup_counterexample :
    currentBalancesLookup
        (runSim 3 [⟨"A", 5, none, none⟩] [] ⟨2019, 1, 1⟩ ⟨2020, 1, 1⟩).1.ledger
        "unknown" = none ∧
    currentBalancesLookup
        (runSim 3 [⟨"A", 5, none, none⟩] [] ⟨2019, 1, 1⟩ ⟨2020, 1, 1⟩).1.ledger
        "unknown" ≠ some 0 ∧
    sumAccounts
        (runSim 3 [⟨"A", 5, none, none⟩] [] ⟨2019, 1, 1⟩ ⟨2020, 1, 1⟩).1.ledger
        ["A", "unknown"] = none := by
  refine ⟨by decide, by decide, by decide⟩

/-- C7 amended: every registered account always appears in the posting
rows (its initial-balance transfer guarantees this), so its
current-balances lookup always succeeds; likewise the summing query over
names of registered accounts succeeds.  Lookups of unregistered,
never-posted accounts fail with a KeyError instead of returning 0. -/
theorem registered_account_balance_defined (fuel : Nat) (accts : List Account)
    (gens : List GenSpec) (sd ed : Date) (a : Account) (ha : a ∈ accts)
    (names : List String) (hn : ∀ n ∈ names, ∃ b ∈ accts, b.name = n) :
    (∃ v, currentBalancesLookup (runSim fuel accts gens sd ed).1.ledger a.name = some v) ∧
    (∃ w, sumAccounts (runSim fuel accts gens sd ed).1.ledger names = some w) := by
  constructor
  · refine ⟨balanceFor (postings (runSim fuel accts gens sd ed).1.ledger) a.name, ?_⟩
    unfold currentBalancesLookup
    rw [acctAppears_of_registered fuel accts gens sd ed a ha]
    simp
  · refine ⟨(names.map (fun n =>
      balanceFor (postings (runSim fuel accts gens sd ed).1.ledger) n)).sum, ?_⟩
    unfold sumAccounts
    have hall : names.all
        (fun n => acctAppears (postings (runSim fuel accts gens sd ed).1.ledger) n) = true := by
      apply List.all_eq_true.mpr
      intro n hmem
      obtain ⟨b, hb, hbn⟩ := hn n hmem
      subst hbn
      exact acctAppears_of_registered fuel accts gens sd ed b hb
    rw [hall]
    simp

theorem registered_account_balance_defined_witness :
    (∃ v, currentBalancesLookup
        (runSim 3 [⟨"A", 5, none, none⟩] [] ⟨2019, 1, 1⟩ ⟨2020, 1, 1⟩).1.ledger
        "A" = some v) ∧
    (∃ w, sumAccounts
        (runSim 3 [⟨"A", 5, none, none⟩] [] ⟨2019, 1, 1⟩ ⟨2020, 1, 1⟩).1.ledger
        ["A"] = some w) :=
  registered_account_balance_defined 3 [⟨"A", 5, none, none⟩] [] ⟨2019, 1, 1⟩ ⟨2020, 1, 1⟩
    ⟨"A", 5, none, none⟩ (by simp) ["A"]
    (by
      intro n hn
      simp only [List.mem_singleton] at hn
      subst hn
      exact ⟨⟨"A", 5, none, none⟩, by simp⟩)

/-- C3: each clock wait primitive (until, tick, next_calendar_year_end,
until_day) raises InvalidWaitTime exactly when the target date it computes
is strictly earlier than the generator's current period: until and tick
fault precisely when their target lies strictly in the past (so waiting
for exactly the current period is accepted), while the year-end and
day-of-month targets are never strictly in the past (for any valid
current date) and those primitives never fault.  A faulting sweep aborts
the run with the error surfaced to the caller and the pending instant's
transfers dropped, so no further transfers from that generator are
recorded after the fault. -/
theorem invalid_wait_time_iff (current d : Date) (g : GenState) (nid : Nat)
    (years months : Int) (day : Nat) (rest : List GenCmd)
    (hm : current.month ≤ 12) (hd : current.day ≤ 31) :
    (g.program = .awaitUntil d :: rest →
      resumeGen current g nid =
        (if Date.blt d current then .error .invalidWaitTime
         else .ok (.waiting,
           { g with program := rest, awaiting := true, waiting_for := d }, nid))) ∧
    (g.program = .awaitTick years months :: rest →
      resumeGen current g nid =
        (if Date.blt (current.addRel years months) current then .error .invalidWaitTime
         else .ok (.waiting,
           { g with program := rest, awaiting := true,
                    waiting_for := current.addRel years months }, nid))) ∧
    (g.program = .awaitNextYearEnd :: rest →
      resumeGen current g nid =
        .ok (.waiting,
          { g with program := rest, awaiting := true,
                   waiting_for := if (⟨current.year, 12, 31⟩ : Date) == current
                                  then ⟨current.year + 1, 12, 31⟩
                                  else ⟨current.year, 12, 31⟩ }, nid)) ∧
    (g.program = .awaitUntilDay day :: rest →
      resumeGen current g nid =
        .ok (.waiting,
          { g with program := rest, awaiting := true,
                   waiting_for := untilDayTarget current day }, nid)) ∧
    (∀ (fuel : Nat) (st : SimState) (pending : List CashFlow) (e : SimError),
      sweepAux st.registry st.current st.gens st.nextId = .error e →
      runLoop (fuel + 1) st pending = (st, some e) ∧
      (runLoop (fuel + 1) st pending).1.ledger = st.ledger) := by
  refine ⟨?_, ?_, ?_, ?_, ?_⟩
  · intro h
    rw [resumeGen_awaitUntil current g nid d rest h]
    unfold setWaiting
    split_ifs <;> rfl
  · intro h
    rw [resumeGen_awaitTick current g nid years months rest h]
    unfold setWaiting
    split_ifs <;> rfl
  · intro h
    rw [resumeGen_awaitNextYearEnd current g nid rest h]
    unfold clockNextYearEnd setWaiting
    rw [Date.blt_yearEnd_same current hm hd]
    by_cases hc : (⟨current.year, 12, 31⟩ : Date) == current
    · simp only [Bind.bind, Except.bind, Bool.false_eq_true, if_false, hc, if_true,
        Date.blt_yearEnd_next]
      rfl
    · simp only [Bind.bind, Except.bind, Bool.false_eq_true, if_false, hc]
      rfl
  · intro h
    rw [resumeGen_awaitUntilDay current g nid day rest h]
    unfold setWaiting
    rw [Date.blt_untilDayTarget]
    simp only [Bool.false_eq_true, if_false]
    rfl
  · intro fuel st pending e hsw
    refine ⟨runLoop_sweep_error fuel st pending e hsw, ?_⟩
    rw [runLoop_sweep_error fuel st pending e hsw]

/-- C6: a generator that invokes a clock wait primitive without actually
suspending (the coroutine body never runs, so control never yields back to
the scheduler and the threshold is untouched, while the pending-suspension
flag is armed) and then produces a transfer makes the sweep fail with the
FailedToAwaitClock fault; conversely, a suspension genuinely observed by
the scheduler disarms the pending-suspension flag in the surviving
generator state and raises no fault. -/
theorem await_enforcement (reg : List Account) (current : Date) (g : GenState)
    (gs : List GenState) (nid nid2 : Nat) (cf : CashFlow) (g2 : GenState)
    (rest : List GenCmd) (hready : clockReady current g = true) :
    (resumeGen current g nid = .ok (.yieldedCf cf, g2, nid2) → g2.awaiting = true →
      sweepAux reg current (g :: gs) nid = .error .failedToAwaitClock) ∧
    (resumeGen current g nid = .ok (.waiting, g2, nid2) →
      sweepAux reg current (g :: gs) nid =
        (sweepAux reg current gs nid2).map
          (fun r => ({ g2 with awaiting := false } :: r.1, r.2.1, r.2.2))) ∧
    (g.program = .waitNotAwaited :: rest →
      resumeGen current g nid =
        resumeGen current { g with program := rest, awaiting := true } nid) := by
  refine ⟨?_, ?_, resumeGen_waitNotAwaited current g nid rest⟩
  · intro hres harm
    unfold sweepAux
    simp only [hready, if_true, hres, harm]
  · intro hres
    cases hrec : sweepAux reg current gs nid2 with
    | error e =>
        unfold sweepAux
        simp only [hready, if_true, hres, hrec]
        rfl
    | ok r =>
        obtain ⟨gs2, cfs, nid3⟩ := r
        unfold sweepAux
        simp only [hready, if_true, hres, hrec]
        rfl

theorem await_enforcement_witness :
    sweepAux [⟨"A", 0, none, none⟩, ⟨"B", 0, none, none⟩] ⟨2019, 6, 1⟩
        [⟨"bad", [.waitNotAwaited, .mint 100 "A" "B" "ok", .yieldMinted 0],
          ⟨2019, 6, 1⟩, false, [], 0⟩] 1
      = .error .failedToAwaitClock ∧
    sweepAux [] ⟨2019, 6, 1⟩
        [⟨"ok", [.awaitUntil ⟨2020, 1, 1⟩], ⟨2019, 6, 1⟩, false, [], 0⟩] 1
      = .ok ([⟨"ok", [], ⟨2020, 1, 1⟩, false, [], 0⟩], [], 1) := by
  constructor
  · exact (await_enforcement [⟨"A", 0, none, none⟩, ⟨"B", 0, none, none⟩] ⟨2019, 6, 1⟩
      ⟨"bad", [.waitNotAwaited, .mint 100 "A" "B" "ok", .yieldMinted 0],
        ⟨2019, 6, 1⟩, false, [], 0⟩ [] 1 2
      ⟨1, ⟨2019, 6, 1⟩, 100, "A", "B", "ok", "bad"⟩
      ⟨"bad", [], ⟨2019, 6, 1⟩, true,
        [⟨1, ⟨2019, 6, 1⟩, 100, "A", "B", "ok", "bad"⟩], 1⟩ [] rfl).1 rfl rfl
  · exact ((await_enforcement [] ⟨2019, 6, 1⟩
      ⟨"ok", [.awaitUntil ⟨2020, 1, 1⟩], ⟨2019, 6, 1⟩, false, [], 0⟩ [] 1 1
      ⟨0, ⟨2019, 6, 1⟩, 0, "", "", "", ""⟩
      ⟨"ok", [], ⟨2020, 1, 1⟩, true, [], 0⟩ [] rfl).2.1 rfl).trans rfl

theorem invalid_wait_time_iff_witness :
    resumeGen ⟨2019, 6, 1⟩ ⟨"g", [.awaitUntil ⟨2010, 1, 1⟩], ⟨2019, 6, 1⟩, false, [], 0⟩ 1
      = .error .invalidWaitTime ∧
    resumeGen ⟨2019, 6, 1⟩ ⟨"g", [.awaitUntil ⟨2019, 6, 1⟩], ⟨2019, 6, 1⟩, false, [], 0⟩ 1
      = .ok (.waiting, ⟨"g", [], ⟨2019, 6, 1⟩, true, [], 0⟩, 1) ∧
    runLoop 1 (initSim [⟨"A", 0, none, none⟩, ⟨"B", 0, none, none⟩]
        [⟨"first", [.awaitUntil ⟨2010, 1, 1⟩]⟩] ⟨2019, 6, 1⟩ ⟨2030, 6, 1⟩) []
      = (initSim [⟨"A", 0, none, none⟩, ⟨"B", 0, none, none⟩]
          [⟨"first", [.awaitUntil ⟨2010, 1, 1⟩]⟩] ⟨2019, 6, 1⟩ ⟨2030, 6, 1⟩,
         some .invalidWaitTime) := by
  refine ⟨?_, ?_, ?_⟩
  · exact ((invalid_wait_time_iff ⟨2019, 6, 1⟩ ⟨2010, 1, 1⟩
      ⟨"g", [.awaitUntil ⟨2010, 1, 1⟩], ⟨2019, 6, 1⟩, false, [], 0⟩ 1 0 0 1 []
      (by decide) (by decide)).1 rfl).trans rfl
  · exact ((invalid_wait_time_iff ⟨2019, 6, 1⟩ ⟨2019, 6, 1⟩
      ⟨"g", [.awaitUntil ⟨2019, 6, 1⟩], ⟨2019, 6, 1⟩, false, [], 0⟩ 1 0 0 1 []
      (by decide) (by decide)).1 rfl).trans rfl
  · exact ((invalid_wait_time_iff ⟨2019, 6, 1⟩ ⟨2010, 1, 1⟩
      ⟨"g", [], ⟨2019, 6, 1⟩, false, [], 0⟩ 1 0 0 1 []
      (by decide) (by decide)).2.2.2.2 0
      (initSim [⟨"A", 0, none, none⟩, ⟨"B", 0, none, none⟩]
        [⟨"first", [.awaitUntil ⟨2010, 1, 1⟩]⟩] ⟨2019, 6, 1⟩ ⟨2030, 6, 1⟩) []
      .invalidWaitTime rfl).1

/-- C5 counterexample: a stalled run (a generator still scheduled for the
current period, a whole instant with no transfers) makes `run` return
normally: the caller receives no error at all, and the stall is only
recorded internally.  This contradicts the claim that the run surfaces a
distinct, catchable StalledSimulation condition to the caller. -/
theorem stalled_swallowed_counterexample :
    (runSim 3 [⟨"A", 0, none, none⟩] [⟨"g", [.awaitUntil ⟨2019, 6, 1⟩]⟩]
        ⟨2019, 6, 1⟩ ⟨2030, 6, 1⟩).2 = none ∧
    (runSim 3 [⟨"A", 0, none, none⟩] [⟨"g", [.awaitUntil ⟨2019, 6, 1⟩]⟩]
        ⟨2019, 6, 1⟩ ⟨2030, 6, 1⟩).1.stopReason = some .stalled := by
  exact ⟨by decide, by decide⟩

/-- C5 amended: when a whole instant produces no transfers and the minimum
threshold over the live generators still equals the current period, the
engine raises the stalled StopSimulation internally, but `run` catches it:
the stall is only recorded (logged), the generators are closed, and the
run returns to the caller without any distinct catchable condition (the
only error that can still escape is FailedToYieldCashFlow from closing a
generator holding unyielded mints). -/
theorem stalled_stop_not_surfaced (fuel : Nat) (st : SimState)
    (gens2 : List GenState) (nid2 : Nat)
    (hsw : sweepAux st.registry st.current st.gens st.nextId = .ok (gens2, [], nid2))
    (hmin : minWaiting gens2 = some st.current) :
    runLoop (fuel + 1) st [] =
      ({ st with gens := gens2, nextId := nid2, stopReason := some .stalled },
       closeAll gens2) := by
  have hma : maybeAdvance { st with gens := gens2, nextId := nid2 }
      (([] : List CashFlow) ++ ([] : List CashFlow)).isEmpty = .inl .stalled := by
    unfold maybeAdvance
    rw [show ({ st with gens := gens2, nextId := nid2 } : SimState).gens = gens2 from rfl,
       hmin]
    simp
  rw [runLoop_stop fuel st [] gens2 [] nid2 .stalled hsw hma]
  simp

theorem stalled_stop_not_surfaced_witness :
    (runLoop 3 (initSim [⟨"A", 0, none, none⟩] [⟨"g", [.awaitUntil ⟨2019, 6, 1⟩]⟩]
        ⟨2019, 6, 1⟩ ⟨2030, 6, 1⟩) []).2 = none ∧
    (runLoop 3 (initSim [⟨"A", 0, none, none⟩] [⟨"g", [.awaitUntil ⟨2019, 6, 1⟩]⟩]
        ⟨2019, 6, 1⟩ ⟨2030, 6, 1⟩) []).1.stopReason = some .stalled := by
  have h := stalled_stop_not_surfaced 2
    (initSim [⟨"A", 0, none, none⟩] [⟨"g", [.awaitUntil ⟨2019, 6, 1⟩]⟩]
      ⟨2019, 6, 1⟩ ⟨2030, 6, 1⟩)
    [⟨"g", [], ⟨2019, 6, 1⟩, false, [], 0⟩] 1 rfl rfl
  constructor
  · rw [h]
    rfl
  · rw [h]

/-- C1: end-of-horizon policy, at any advance decision (minimum threshold
np differs from the current period).  (i) If np equals end_date, the
period advances to end_date and is marked final, and the run continues
with exactly the sweeps of that final instant (the flushed ledger keeps
the just-finished instant's transfers).  (ii) Once the final period is
marked, the next advance request stops the run.  (iii) If np is strictly
beyond end_date, the run stops immediately: the overshoot sweep never
executes and the transfers already collected from the just-finished
instant are flushed into the ledger. -/
theorem end_of_horizon_policy (fuel : Nat) (st : SimState) (pending : List CashFlow)
    (gens2 : List GenState) (cfs : List CashFlow) (nid2 : Nat) (np : Date)
    (hsw : sweepAux st.registry st.current st.gens st.nextId = .ok (gens2, cfs, nid2))
    (hmin : minWaiting gens2 = some np)
    (hne : np ≠ st.current) :
    (st.lastPeriod = false → np = st.end_date →
      runLoop (fuel + 1) st pending =
        runLoop fuel
          { st with gens := gens2, nextId := nid2, current := np, lastPeriod := true,
                    ledger := st.ledger ++ (pending ++ cfs) } []) ∧
    (st.lastPeriod = true →
      runLoop (fuel + 1) st pending =
        ({ st with gens := gens2, nextId := nid2,
                   ledger := st.ledger ++ (pending ++ cfs),
                   stopReason := some .lastPeriodAdvance }, closeAll gens2)) ∧
    (st.lastPeriod = false → Date.blt st.end_date np = true →
      runLoop (fuel + 1) st pending =
        ({ st with gens := gens2, nextId := nid2,
                   ledger := st.ledger ++ (pending ++ cfs),
                   stopReason := some .pastEnd }, closeAll gens2)) := by
  have hb1 : (np == st.current) = false := beq_eq_false_iff_ne.mpr hne
  have hb2 : (st.current == np) = false := beq_eq_false_iff_ne.mpr (Ne.symm hne)
  refine ⟨?_, ?_, ?_⟩
  · intro hlp hend
    have hma : maybeAdvance { st with gens := gens2, nextId := nid2 }
        (pending ++ cfs).isEmpty =
        .inr ({ st with gens := gens2, nextId := nid2, current := np,
                        lastPeriod := true }, true) := by
      unfold maybeAdvance
      rw [show ({ st with gens := gens2, nextId := nid2 } : SimState).gens = gens2 from rfl,
         hmin]
      simp only [hb1, hb2, Bool.and_false, Bool.false_eq_true, if_false]
      have he : (np == ({ st with gens := gens2, nextId := nid2 } : SimState).end_date)
          = true := by
        simp only []
        exact beq_iff_eq.mpr hend
      simp only [hlp, he, if_true, if_false]
      rfl
    rw [runLoop_step_inr fuel st pending gens2 cfs nid2 _ true hsw hma]
    rfl
  · intro hlp
    have hma : maybeAdvance { st with gens := gens2, nextId := nid2 }
        (pending ++ cfs).isEmpty = .inl .lastPeriodAdvance := by
      unfold maybeAdvance
      rw [show ({ st with gens := gens2, nextId := nid2 } : SimState).gens = gens2 from rfl,
         hmin]
      simp only [hb1, hb2, Bool.and_false, Bool.false_eq_true, if_false, hlp, if_true]
    exact runLoop_stop fuel st pending gens2 cfs nid2 .lastPeriodAdvance hsw hma
  · intro hlp hblt
    have hnpe : (np == st.end_date) = false :=
      beq_eq_false_iff_ne.mpr (Date.ne_of_blt st.end_date np hblt)
    have hma : maybeAdvance { st with gens := gens2, nextId := nid2 }
        (pending ++ cfs).isEmpty = .inl .pastEnd := by
      unfold maybeAdvance
      rw [show ({ st with gens := gens2, nextId := nid2 } : SimState).gens = gens2 from rfl,
         hmin]
      simp only [hb1, hb2, Bool.and_false, Bool.false_eq_true, if_false, hlp, hnpe, hblt,
        if_true]
    exact runLoop_stop fuel st pending gens2 cfs nid2 .pastEnd hsw hma
theorem end_of_horizon_policy_witness :
    (runLoop 5 (initSim [⟨"A", 0, none, none⟩, ⟨"B", 0, none, none⟩]
        [⟨"g", [.awaitUntil ⟨2019, 12, 31⟩, .mint 100 "A" "B" "x", .yieldMinted 0]⟩]
        ⟨2019, 1, 1⟩ ⟨2019, 12, 31⟩) [] =
      runLoop 4
        { initSim [⟨"A", 0, none, none⟩, ⟨"B", 0, none, none⟩]
            [⟨"g", [.awaitUntil ⟨2019, 12, 31⟩, .mint 100 "A" "B" "x", .yieldMinted 0]⟩]
            ⟨2019, 1, 1⟩ ⟨2019, 12, 31⟩ with
          gens := [⟨"g", [.mint 100 "A" "B" "x", .yieldMinted 0], ⟨2019, 12, 31⟩,
                    false, [], 0⟩],
          nextId := 1, current := ⟨2019, 12, 31⟩, lastPeriod := true,
          ledger := (initSim [⟨"A", 0, none, none⟩, ⟨"B", 0, none, none⟩]
            [⟨"g", [.awaitUntil ⟨2019, 12, 31⟩, .mint 100 "A" "B" "x", .yieldMinted 0]⟩]
            ⟨2019, 1, 1⟩ ⟨2019, 12, 31⟩).ledger ++ ([] ++ []) } []) ∧
    (runLoop 5 (⟨⟨2019, 1, 1⟩, ⟨2019, 12, 31⟩, ⟨2019, 12, 31⟩, true,
        [⟨"g", [], ⟨2020, 12, 31⟩, false, [], 0⟩], 1, [], [], none⟩ : SimState) [] =
      ({ (⟨⟨2019, 1, 1⟩, ⟨2019, 12, 31⟩, ⟨2019, 12, 31⟩, true,
            [⟨"g", [], ⟨2020, 12, 31⟩, false, [], 0⟩], 1, [], [], none⟩ : SimState) with
          gens := [⟨"g", [], ⟨2020, 12, 31⟩, false, [], 0⟩], nextId := 1,
          ledger := [] ++ ([] ++ []), stopReason := some .lastPeriodAdvance },
        closeAll [⟨"g", [], ⟨2020, 12, 31⟩, false, [], 0⟩])) ∧
    (runLoop 5 (initSim [⟨"A", 0, none, none⟩]
        [⟨"over", [.awaitUntil ⟨2020, 6, 1⟩]⟩] ⟨2019, 1, 1⟩ ⟨2019, 12, 31⟩) [] =
      ({ initSim [⟨"A", 0, none, none⟩] [⟨"over", [.awaitUntil ⟨2020, 6, 1⟩]⟩]
            ⟨2019, 1, 1⟩ ⟨2019, 12, 31⟩ with
          gens := [⟨"over", [], ⟨2020, 6, 1⟩, false, [], 0⟩], nextId := 1,
          ledger := (initSim [⟨"A", 0, none, none⟩] [⟨"over", [.awaitUntil ⟨2020, 6, 1⟩]⟩]
            ⟨2019, 1, 1⟩ ⟨2019, 12, 31⟩).ledger ++ ([] ++ []),
          stopReason := some .pastEnd },
        closeAll [⟨"over", [], ⟨2020, 6, 1⟩, false, [], 0⟩])) := by
  refine ⟨?_, ?_, ?_⟩
  · exact (end_of_horizon_policy 4
      (initSim [⟨"A", 0, none, none⟩, ⟨"B", 0, none, none⟩]
        [⟨"g", [.awaitUntil ⟨2019, 12, 31⟩, .mint 100 "A" "B" "x", .yieldMinted 0]⟩]
        ⟨2019, 1, 1⟩ ⟨2019, 12, 31⟩) []
      [⟨"g", [.mint 100 "A" "B" "x", .yieldMinted 0], ⟨2019, 12, 31⟩, false, [], 0⟩]
      [] 1 ⟨2019, 12, 31⟩ rfl rfl (by decide)).1 rfl rfl
  · exact (end_of_horizon_policy 4
      (⟨⟨2019, 1, 1⟩, ⟨2019, 12, 31⟩, ⟨2019, 12, 31⟩, true,
        [⟨"g", [], ⟨2020, 12, 31⟩, false, [], 0⟩], 1, [], [], none⟩ : SimState) []
      [⟨"g", [], ⟨2020, 12, 31⟩, false, [], 0⟩] [] 1 ⟨2020, 12, 31⟩
      rfl rfl (by decide)).2.1 rfl
  · exact (end_of_horizon_policy 4
      (initSim [⟨"A", 0, none, none⟩] [⟨"over", [.awaitUntil ⟨2020, 6, 1⟩]⟩]
        ⟨2019, 1, 1⟩ ⟨2019, 12, 31⟩) []
      [⟨"over", [], ⟨2020, 6, 1⟩, false, [], 0⟩] [] 1 ⟨2020, 6, 1⟩
      rfl rfl (by decide)).2.2 rfl (by decide)


theorem resumeFrom_spec (current : Date) :
    ∀ (prog : List GenCmd) (g : GenState) (nid : Nat) (out : ResumeOut)
      (g2 : GenState) (nid2 : Nat),
    resumeFrom current prog g nid = .ok (out, g2, nid2) →
    g2.name = g.name ∧
    (∃ k newMints, nid2 = nid + k ∧ g2.minted = g.minted ++ newMints ∧
        newMints.map CashFlow.txn_id = List.range' nid k ∧
        (∀ m ∈ newMints, m.generator = g.name)) ∧
    (∀ cf, out = .yieldedCf cf → cf ∈ g2.minted) := by
  intro prog
  induction prog with
  | nil =>
    intro g nid out g2 nid2 h
    simp only [resumeFrom] at h
    cases h
    refine ⟨rfl, ⟨0, [], by simp, by simp, by simp, by simp⟩, ?_⟩
    intro cf hcf
    cases hcf
  | cons cmd rest ih =>
    intro g nid out g2 nid2 h
    cases cmd with
    | mint amount src dst desc =>
      simp only [resumeFrom] at h
      obtain ⟨hname, ⟨k, nm, hk, hm, hr, hgen⟩, hyield⟩ := ih _ _ _ _ _ h
      refine ⟨hname, ⟨k + 1,
        { txn_id := nid, date := current, amount := amount, from_acct := src,
          to_acct := dst, description := desc, generator := g.name } :: nm, ?_, ?_, ?_, ?_⟩, hyield⟩
      · omega
      · simpa [List.append_assoc] using hm
      · simp only [List.map_cons, hr]
        rfl
      · intro m hmem
        rcases List.mem_cons.mp hmem with h1 | h1
        · rw [h1]
        · exact hgen m h1
    | yieldMinted i =>
      simp only [resumeFrom] at h
      cases hget : g.minted[i]? with
      | some cf =>
        rw [hget] at h
        cases h
        refine ⟨rfl, ⟨0, [], by simp, by simp, by simp, by simp⟩, ?_⟩
        intro cf2 hcf
        cases hcf
        exact List.getElem?_mem hget
      | none =>
        rw [hget] at h
        cases h
    | awaitUntil d =>
      simp only [resumeFrom] at h
      unfold setWaiting at h
      split at h
      · cases h
      · cases h
        exact ⟨rfl, ⟨0, [], by simp, by simp, by simp, by simp⟩, by intro cf hcf; cases hcf⟩
    | awaitTick years months =>
      simp only [resumeFrom] at h
      unfold setWaiting at h
      split at h
      · cases h
      · cases h
        exact ⟨rfl, ⟨0, [], by simp, by simp, by simp, by simp⟩, by intro cf hcf; cases hcf⟩
    | awaitNextYearEnd =>
      simp only [resumeFrom] at h
      unfold clockNextYearEnd setWaiting at h
      split at h
      · simp [Except.map, Bind.bind, Except.bind] at h
      · simp only [Bind.bind, Except.bind] at h
        split at h
        · split at h
          · cases h
          · cases h
            exact ⟨rfl, ⟨0, [], by simp, by simp, by simp, by simp⟩,
              by intro cf hcf; cases hcf⟩
        · cases h
          exact ⟨rfl, ⟨0, [], by simp, by simp, by simp, by simp⟩,
            by intro cf hcf; cases hcf⟩
    | awaitUntilDay day =>
      simp only [resumeFrom] at h
      unfold setWaiting at h
      split at h
      · cases h
      · cases h
        exact ⟨rfl, ⟨0, [], by simp, by simp, by simp, by simp⟩, by intro cf hcf; cases hcf⟩
    | waitNotAwaited =>
      simp only [resumeFrom] at h
      obtain ⟨hname, ⟨k, nm, hk, hm, hr, hgen⟩, hyield⟩ := ih _ _ _ _ _ h
      exact ⟨hname, ⟨k, nm, hk, hm, hr, hgen⟩, hyield⟩

/-- C4 amended: within one sweep over the live generators, the scheduler
resumes each ready generator at most once, in registration order, and
collects at most one transfer from each; the sweep's production order is
therefore a sublist of the registration order (the run loop then repeats
whole sweeps while any generator remains ready, so a generator producing
several transfers in one instant has them interleaved with the other
ready generators' transfers, one per sweep, not consecutively). -/
theorem sweep_one_transfer_per_generator (reg : List Account) (current : Date) :
    ∀ (gens : List GenState) (nid : Nat) (gens2 : List GenState)
      (cfs : List CashFlow) (nid2 : Nat),
    (∀ g ∈ gens, ∀ m ∈ g.minted, m.generator = g.name) →
    sweepAux reg current gens nid = .ok (gens2, cfs, nid2) →
    (cfs.map CashFlow.generator).Sublist (gens.map GenState.name) := by
  intro gens
  induction gens with
  | nil =>
    intro nid gens2 cfs nid2 hm h
    simp only [sweepAux] at h
    cases h
    simp
  | cons g gs ih =>
    intro nid gens2 cfs nid2 hm h
    have hmtail : ∀ g2 ∈ gs, ∀ m ∈ g2.minted, m.generator = g2.name :=
      fun g2 hg2 => hm g2 (List.mem_cons_of_mem g hg2)
    simp only [sweepAux] at h
    split at h
    · split at h
      · cases h
      · rename_i g2 n2 heq
        split at h
        · cases h
        · exact (ih _ _ _ _ hmtail h).cons g.name
      · rename_i g2 n2 heq
        cases hrec : sweepAux reg current gs n2 with
        | error e => rw [hrec] at h; cases h
        | ok r2 =>
          obtain ⟨gs2, cfs2, nid3⟩ := r2
          rw [hrec] at h
          cases h
          exact (ih _ _ _ _ hmtail hrec).cons g.name
      · rename_i cf g2 n2 heq
        split at h
        · cases h
        · split at h
          · cases hrec : sweepAux reg current gs n2 with
            | error e => rw [hrec] at h; cases h
            | ok r2 =>
              obtain ⟨gs2, cfs2, nid3⟩ := r2
              rw [hrec] at h
              cases h
              obtain ⟨hname, ⟨k, nm, hk, hmint, hrange, hgen⟩, hyield⟩ :=
                resumeFrom_spec current g.program g nid (.yieldedCf cf) g2 n2 heq
              have hcfg : cf.generator = g.name := by
                have hmem := hyield cf rfl
                rw [hmint] at hmem
                rcases List.mem_append.mp hmem with h1 | h1
                · exact hm g (List.mem_cons_self g gs) cf h1
                · exact hgen cf h1
              simp only [List.map_cons]
              rw [hcfg]
              exact List.Sublist.cons₂ g.name (ih _ _ _ _ hmtail hrec)
          · cases h
    · cases hrec : sweepAux reg current gs nid with
      | error e => rw [hrec] at h; cases h
      | ok r2 =>
        obtain ⟨gs2, cfs2, nid3⟩ := r2
        rw [hrec] at h
        cases h
        exact (ih _ _ _ _ hmtail hrec).cons g.name

/-- C4 counterexample: two generators registered in order (first, second),
each producing two transfers at the same instant without ever suspending.
The ledger records them as first, second, first, second: after a valid
transfer the scheduler moves on to the next ready generator (one transfer
per generator per sweep) instead of continuing to resume the same
generator until it suspends or terminates.  This interleaving is exactly
what the repository's own interleaving test expects. -/
theorem generator_interleave_counterexample :
    (((runSim 4 [⟨"A", 0, none, none⟩, ⟨"B", 0, none, none⟩, ⟨"C", 0, none, none⟩]
        [⟨"first", [.mint 100 "A" "B" "first", .yieldMinted 0,
                    .mint 300 "A" "B" "third", .yieldMinted 1]⟩,
         ⟨"second", [.mint 200 "A" "C" "second", .yieldMinted 0,
                     .mint 400 "A" "C" "last", .yieldMinted 1]⟩]
        ⟨2019, 6, 1⟩ ⟨2030, 6, 1⟩).1.ledger.filter
          (fun c => c.txn_id != 0)).map CashFlow.generator
      = ["first", "second", "first", "second"]) ∧
    blockConsecutive
      (((runSim 4 [⟨"A", 0, none, none⟩, ⟨"B", 0, none, none⟩, ⟨"C", 0, none, none⟩]
        [⟨"first", [.mint 100 "A" "B" "first", .yieldMinted 0,
                    .mint 300 "A" "B" "third", .yieldMinted 1]⟩,
         ⟨"second", [.mint 200 "A" "C" "second", .yieldMinted 0,
                     .mint 400 "A" "C" "last", .yieldMinted 1]⟩]
        ⟨2019, 6, 1⟩ ⟨2030, 6, 1⟩).1.ledger.filter
          (fun c => c.txn_id != 0)).map CashFlow.generator)
      = false := by
  exact ⟨by decide, by decide⟩

theorem sweep_one_transfer_per_generator_witness :
    (List.map CashFlow.generator
        [⟨1, ⟨2019, 6, 1⟩, 100, "A", "B", "x", "first"⟩,
         ⟨2, ⟨2019, 6, 1⟩, 200, "A", "B", "y", "second"⟩]).Sublist
      (List.map GenState.name
        [⟨"first", [.mint 100 "A" "B" "x", .yieldMinted 0], ⟨2019, 6, 1⟩, false, [], 0⟩,
         ⟨"second", [.mint 200 "A" "B" "y", .yieldMinted 0], ⟨2019, 6, 1⟩, false, [], 0⟩]) :=
  sweep_one_transfer_per_generator
    [⟨"A", 0, none, none⟩, ⟨"B", 0, none, none⟩] ⟨2019, 6, 1⟩
    [⟨"first", [.mint 100 "A" "B" "x", .yieldMinted 0], ⟨2019, 6, 1⟩, false, [], 0⟩,
     ⟨"second", [.mint 200 "A" "B" "y", .yieldMinted 0], ⟨2019, 6, 1⟩, false, [], 0⟩]
    1
    [⟨"first", [], ⟨2019, 6, 1⟩, false,
        [⟨1, ⟨2019, 6, 1⟩, 100, "A", "B", "x", "first"⟩], 0⟩,
     ⟨"second", [], ⟨2019, 6, 1⟩, false,
        [⟨2, ⟨2019, 6, 1⟩, 200, "A", "B", "y", "second"⟩], 0⟩]
    [⟨1, ⟨2019, 6, 1⟩, 100, "A", "B", "x", "first"⟩,
     ⟨2, ⟨2019, 6, 1⟩, 200, "A", "B", "y", "second"⟩]
    3 (by simp) rfl

/-- C8 counterexample: generator g1 mints two transfers (ids 1 and 2)
before yielding, generator g2 mints id 3 in between; ledger production
order carries ids 1, 3, 2 — not strictly increasing — even though every
transfer is yielded in its own generator's mint order. -/
theorem txn_id_order_counterexample :
    (((runSim 4 [⟨"A", 0, none, none⟩, ⟨"B", 0, none, none⟩]
        [⟨"g1", [.mint 10 "A" "B" "a", .mint 20 "A" "B" "b",
                 .yieldMinted 0, .yieldMinted 1]⟩,
         ⟨"g2", [.mint 30 "A" "B" "c", .yieldMinted 0]⟩]
        ⟨2019, 6, 1⟩ ⟨2030, 6, 1⟩).1.ledger.filter
          (fun c => c.txn_id != 0)).map CashFlow.txn_id
      = [1, 3, 2]) ∧
    strictlyIncreasing
      (((runSim 4 [⟨"A", 0, none, none⟩, ⟨"B", 0, none, none⟩]
        [⟨"g1", [.mint 10 "A" "B" "a", .mint 20 "A" "B" "b",
                 .yieldMinted 0, .yieldMinted 1]⟩,
         ⟨"g2", [.mint 30 "A" "B" "c", .yieldMinted 0]⟩]
        ⟨2019, 6, 1⟩ ⟨2030, 6, 1⟩).1.ledger.filter
          (fun c => c.txn_id != 0)).map CashFlow.txn_id)
      = false := by
  exact ⟨by decide, by decide⟩

theorem sweepAux_nid_mono (reg : List Account) (current : Date) :
    ∀ (gens : List GenState) (nid : Nat) (gens2 : List GenState)
      (cfs : List CashFlow) (nid2 : Nat),
    sweepAux reg current gens nid = .ok (gens2, cfs, nid2) → nid ≤ nid2 := by
  intro gens
  induction gens with
  | nil =>
    intro nid gens2 cfs nid2 h
    simp only [sweepAux] at h
    cases h
    exact Nat.le_refl _
  | cons g gs ih =>
    intro nid gens2 cfs nid2 h
    simp only [sweepAux] at h
    split at h
    · split at h
      · cases h
      · rename_i g2 n2 heq
        split at h
        · cases h
        · obtain ⟨k, nm, hk, _⟩ := (resumeFrom_spec current g.program g nid _ g2 n2 heq).2.1
          have h2 := ih _ _ _ _ h
          omega
      · rename_i g2 n2 heq
        cases hrec : sweepAux reg current gs n2 with
        | error e => rw [hrec] at h; cases h
        | ok r2 =>
          obtain ⟨gs2, cfs2, nid3⟩ := r2
          rw [hrec] at h
          cases h
          obtain ⟨k, nm, hk, _⟩ := (resumeFrom_spec current g.program g nid _ g2 n2 heq).2.1
          have h2 := ih _ _ _ _ hrec
          omega
      · rename_i cf g2 n2 heq
        split at h
        · cases h
        · split at h
          · cases hrec : sweepAux reg current gs n2 with
            | error e => rw [hrec] at h; cases h
            | ok r2 =>
              obtain ⟨gs2, cfs2, nid3⟩ := r2
              rw [hrec] at h
              cases h
              obtain ⟨k, nm, hk, _⟩ :=
                (resumeFrom_spec current g.program g nid _ g2 n2 heq).2.1
              have h2 := ih _ _ _ _ hrec
              omega
          · cases h
    · cases hrec : sweepAux reg current gs nid with
      | error e => rw [hrec] at h; cases h
      | ok r2 =>
        obtain ⟨gs2, cfs2, nid3⟩ := r2
        rw [hrec] at h
        cases h
        exact ih _ _ _ _ hrec

/-- C8 amended: transfer ids are assigned from a strictly increasing
global fountain at mint time: one resumption stamps its newly minted
transfers with consecutive fresh ids starting at the current fountain
value, and the fountain never decreases across a sweep.  Ledger
production order therefore carries strictly increasing ids only when
yields follow the global mint order; interleaved minting across
generators or out-of-order yielding (both permitted by the engine) break
production-order monotonicity, as the counterexample shows. -/
theorem id_fountain_monotone (current : Date) (prog : List GenCmd) (g : GenState)
    (nid : Nat) (out : ResumeOut) (g2 : GenState) (nid2 : Nat) (reg : List Account)
    (gensA : List GenState) (nidA : Nat) (gens2 : List GenState) (cfs : List CashFlow)
    (nid3 : Nat)
    (hres : resumeFrom current prog g nid = .ok (out, g2, nid2))
    (hsw : sweepAux reg current gensA nidA = .ok (gens2, cfs, nid3)) :
    (∃ k newMints, nid2 = nid + k ∧ g2.minted = g.minted ++ newMints ∧
        newMints.map CashFlow.txn_id = List.range' nid k) ∧
    nidA ≤ nid3 := by
  obtain ⟨_, ⟨k, nm, hk, hm, hr, _⟩, _⟩ := resumeFrom_spec current prog g nid out g2 nid2 hres
  exact ⟨⟨k, nm, hk, hm, hr⟩,
    sweepAux_nid_mono reg current gensA nidA gens2 cfs nid3 hsw⟩

theorem id_fountain_monotone_witness :
    (∃ k newMints, 3 = 1 + k ∧
      ([⟨1, ⟨2019, 6, 1⟩, 10, "A", "B", "a", "g1"⟩,
        ⟨2, ⟨2019, 6, 1⟩, 20, "A", "B", "b", "g1"⟩] : List CashFlow) = [] ++ newMints ∧
      newMints.map CashFlow.txn_id = List.range' 1 k) ∧
    (5 : Nat) ≤ 5 :=
  id_fountain_monotone ⟨2019, 6, 1⟩
    [.mint 10 "A" "B" "a", .mint 20 "A" "B" "b", .yieldMinted 0, .yieldMinted 1]
    ⟨"g1", [.mint 10 "A" "B" "a", .mint 20 "A" "B" "b", .yieldMinted 0, .yieldMinted 1],
      ⟨2019, 6, 1⟩, false, [], 0⟩
    1 (.yieldedCf ⟨1, ⟨2019, 6, 1⟩, 10, "A", "B", "a", "g1"⟩)
    ⟨"g1", [.yieldMinted 1], ⟨2019, 6, 1⟩, false,
      [⟨1, ⟨2019, 6, 1⟩, 10, "A", "B", "a", "g1"⟩,
       ⟨2, ⟨2019, 6, 1⟩, 20, "A", "B", "b", "g1"⟩], 2⟩
    3 [] [] 5 [] [] 5 rfl rfl

end Cfs
